import Mathlib

/-!
Shallow embedding of the redwood release tooling:
* `src/.github/workflows/require-release-label.yml` — the CI label gate;
* `src/tasks/release/validateMilestonesCommand.mjs` — the `validate-milestones`
  command.

The script's I/O (GraphQL queries, terminal prompts, console output, browser
openings, GraphQL mutations) is embedded as an environment record holding the
query results, an input stream of operator answers, and a trace of emitted
effects.  Helpers imported from `releaseLib.mjs` (a file not part of this
repository snapshot) are modelled from the specification where their behavior
matters.
-/

namespace Redwood

/-- A merge commit as returned by the `GetPRs` GraphQL query. -/
structure MergeCommit where
  message : String
deriving DecidableEq

/-- A pull-request node as returned by the `GetPRs` GraphQL query. -/
structure PullRequestNode where
  id : String
  number : Nat
  title : String
  mergeCommit : MergeCommit
deriving DecidableEq

/-- Pagination info of a milestone's pull-request connection. -/
structure PageInfo where
  hasNextPage : Bool
deriving DecidableEq

/-- A milestone's pull-request connection (`pullRequests(first: 100)`). -/
structure PullRequestConnection where
  pageInfo : PageInfo
  nodes : List PullRequestNode
deriving DecidableEq

/-- A milestone node as returned by the `GetPRs` GraphQL query. -/
structure Milestone where
  id : String
  title : String
  pullRequests : PullRequestConnection
deriving DecidableEq

/-- A commit of the release branch, as returned by `getReleaseCommits`. -/
structure Commit where
  message : String
deriving DecidableEq

/-- The environment a run of the `validate-milestones` handler observes:
credential presence, the two GraphQL query results, and the git-side data
returned by the `releaseLib.mjs` helpers. -/
structure Env where
  /-- Truthiness of `process.env.GITHUB_TOKEN`. -/
  hasGithubToken : Bool
  /-- `totalCount` returned by the `GetOpenCherryPickPRsQuery` query. -/
  cherryPickTotalCount : Nat
  /-- Milestone nodes returned by the `GetPRs` query. -/
  milestones : List Milestone
  /-- Modelled from the spec: `getReleaseBranch` (in `releaseLib.mjs`, not in
  this snapshot) returns the current release branch name, e.g.
  `release/minor/v3.5.0`. -/
  releaseBranch : String
  /-- Modelled from the spec: `getReleaseCommits` (in `releaseLib.mjs`, not in
  this snapshot) returns the commits reachable from the release branch. -/
  releaseCommits : List Commit
  /-- Modelled from the spec: first lines of the commit messages reachable from
  the `next` branch; `isCommitInRef('next', m)` (in `releaseLib.mjs`, not in
  this snapshot) is membership in this list. -/
  nextCommitMessages : List String
  /-- Modelled from the spec: `sanitizeMessage` (in `releaseLib.mjs`, not in
  this snapshot) normalizes a merge-commit message before comparison against
  the `next` branch history; the exact transformation is external to the spec,
  so it is kept abstract. -/
  sanitize : String → String

/-- One observable side effect of a run. -/
inductive Effect where
  /-- `openCherryPickPRs()`: report the open cherry-pick PRs. -/
  | openCherryPickPRs : Effect
  /-- `open https://github.com/redwoodjs/redwood/pull/<number>`. -/
  | openBrowser (number : Nat) : Effect
  /-- The per-PR report printed by `makeValidateMilestone`: id, number, title,
  expected milestone, actual milestone, and ok (`true`) / error (`false`). -/
  | presentPR (id : String) (number : Nat) (title : String)
      (expected : Option String) (actual : String) (ok : Bool) : Effect
  /-- The `done` line printed when a PR's processing finishes. -/
  | markDone (id : String) : Effect
  /-- The `MilestonePullRequest` GraphQL mutation with its two variables;
  `milestoneId = none` models passing JavaScript `undefined`. -/
  | mutate (pullRequestId : String) (milestoneId : Option String) : Effect
deriving DecidableEq

/-- Result of a run that terminated: its exit code and effect trace. -/
structure RunResult where
  exitCode : Nat
  effects : List Effect
deriving DecidableEq

/-- JavaScript `String.prototype.split` with a one-character separator, on the
underlying character list. -/
def splitChar (sep : Char) : List Char → List (List Char)
  | [] => [[]]
  | c :: cs =>
    let rest := splitChar sep cs
    if c = sep then
      [] :: rest
    else
      match rest with
      | [] => [[c]]
      | r :: rs => (c :: r) :: rs

/-- JavaScript `s.split(sep)` for a one-character separator. -/
def jsSplit (sep : Char) (s : String) : List String :=
  (splitChar sep s.data).map fun l => ⟨l⟩

/-- `pr.mergeCommit.message.split('\n').shift()`: the first line of a
merge-commit message (line 94). -/
def firstLine (s : String) : String :=
  (jsSplit (Char.ofNat 10) s).headD ""

/-- The hardcoded `IGNORE_LIST` of pull-request ids (lines 242-251). -/
def IGNORE_LIST : List String :=
  ["PR_kwDOC2M2f85AxHWK",
   "PR_kwDOC2M2f85Axh0g",
   "PR_kwDOC2M2f85A0cDn",
   "PR_kwDOC2M2f85CiaV_"]

/-- A flattened pull request as built in lines 91-102: the node's fields, the
merge-commit message truncated to its first line, and the title of the
milestone it came from. -/
structure FlatPR where
  id : String
  number : Nat
  title : String
  mergeCommitMessage : String
  milestone : String
deriving DecidableEq

/-- `nodes.filter((node) => node.title !== 'chore')` (line 59). -/
def nodesOf (env : Env) : List Milestone :=
  env.milestones.filter fun node => node.title != "chore"

/-- The flattened, ignore-filtered pull-request list (lines 91-102). -/
def prsOf (nodes : List Milestone) : List FlatPR :=
  (nodes.flatMap fun milestone =>
    milestone.pullRequests.nodes.map fun pr =>
      { id := pr.id
        number := pr.number
        title := pr.title
        mergeCommitMessage := firstLine pr.mergeCommit.message
        milestone := milestone.title }).filter
    fun pr => !(IGNORE_LIST.contains pr.id)

/-- The `milestoneTitlesToIds` object built by `reduce` (lines 104-107): start
from the empty object and set `obj[title] = id` for each node in order, so a
later node with the same title overwrites an earlier one. -/
def milestoneTitlesToIds (nodes : List Milestone) : String → Option String :=
  nodes.foldl
    (fun obj node => fun title => if title = node.title then some node.id else obj title)
    (fun _ => none)

/-- `isCommitInReleaseBranch` (lines 176-179): does some release-branch commit
have exactly this message? -/
def isCommitInReleaseBranch (env : Env) (message : String) : Bool :=
  env.releaseCommits.any fun commit => commit.message == message

/-- Modelled from the spec: `isCommitInRef('next', m)` (in `releaseLib.mjs`,
not in this snapshot) — is the message present among commits reachable from
the `next` branch? -/
def isCommitInNext (env : Env) (message : String) : Bool :=
  env.nextCommitMessages.contains message

/-- Modelled from the spec: `isYes` (in `releaseLib.mjs`, not in this
snapshot) — a response is affirmative when it is `y` or the empty default. -/
def isYes (answer : String) : Bool :=
  answer == "y" || answer == ""

/-- The expected milestone chosen by the classification in the loop body
(lines 121-131): release-branch membership first, then `next` membership of
the sanitized message, then the `v4.0.0` fallback.  `none` models the
JavaScript `undefined` produced by `branch.split('/')[2]` when the branch name
has fewer than three segments. -/
def expectedMilestoneFor (env : Env) (message : String) : Option String :=
  if isCommitInReleaseBranch env message then
    (jsSplit '/' env.releaseBranch)[2]?
  else if isCommitInNext env (env.sanitize message) then
    some "next-release"
  else
    some "v4.0.0"

/-- The effects of an affirmative fix (lines 215-226): the
`MilestonePullRequest` mutation with `pr.id` and
`this.milestoneTitlesToIds[milestone]`, then the `done` line. -/
def fixEffects (t2i : String → Option String) (pr : FlatPR)
    (milestone : Option String) : List Effect :=
  [Effect.mutate pr.id (milestone.bind t2i), Effect.markDone pr.id]

/-- The `while (true)` reconciliation loop of `makeValidateMilestone`
(lines 201-229), run on the remaining operator-input stream.  Returns the
effects it emits and the unconsumed stream, or `none` when the loop would
block forever awaiting input.  With `prompt = false` the answer stays the
initial `'y'` and no input is read. -/
def runFixLoop (prompt : Bool) (t2i : String → Option String) (pr : FlatPR)
    (milestone : Option String) : List String → Option (List Effect × List String)
  | [] =>
    if prompt then none else some (fixEffects t2i pr milestone, [])
  | a :: rest =>
    if prompt then
      if a == "open" || a == "o" then
        (runFixLoop prompt t2i pr milestone rest).map fun es =>
          (Effect.openBrowser pr.number :: es.1, es.2)
      else if isYes a then
        some (fixEffects t2i pr milestone, rest)
      else
        some ([Effect.markDone pr.id], rest)
    else
      some (fixEffects t2i pr milestone, a :: rest)

/-- `makeValidateMilestone` (lines 181-230): print the report line, and either
finish immediately on a correct milestone or enter the reconciliation loop. -/
def validateMilestone (prompt : Bool) (t2i : String → Option String)
    (pr : FlatPR) (milestone : Option String) (answers : List String) :
    Option (List Effect × List String) :=
  let hasCorrectMilestone := some pr.milestone == milestone
  let present := Effect.presentPR pr.id pr.number pr.title milestone
    pr.milestone hasCorrectMilestone
  if hasCorrectMilestone then
    some ([present, Effect.markDone pr.id], answers)
  else
    (runFixLoop prompt t2i pr milestone answers).map fun es =>
      (present :: es.1, es.2)

/-- The `for (const pr of prs)` loop (lines 118-132): classify each PR and run
`validateMilestone` on it, threading the operator-input stream. -/
def runPRs (env : Env) (prompt : Bool) (t2i : String → Option String) :
    List FlatPR → List String → Option (List Effect × List String)
  | [], answers => some ([], answers)
  | pr :: rest, answers =>
    (validateMilestone prompt t2i pr
        (expectedMilestoneFor env pr.mergeCommitMessage) answers).bind fun es =>
      (runPRs env prompt t2i rest es.2).map fun es2 => (es.1 ++ es2.1, es2.2)

/-- The `handler` of the `validate-milestones` command (lines 31-133):
credential guard, cherry-pick guard, chore filter, pagination guard, the
initial review question, then the per-PR loop.  `answers` is the stream of
operator responses; the result is `none` when the run would block forever
awaiting input. -/
def handler (prompt : Bool) (env : Env) (answers : List String) :
    Option RunResult :=
  if !env.hasGithubToken then
    some ⟨1, []⟩
  else if env.cherryPickTotalCount > 0 then
    some ⟨1, [Effect.openCherryPickPRs]⟩
  else
    let nodes := nodesOf env
    if !(nodes.all fun milestone => !milestone.pullRequests.pageInfo.hasNextPage) then
      some ⟨1, []⟩
    else
      match answers with
      | [] => none
      | answer :: rest =>
        if answer == "n" then
          some ⟨1, []⟩
        else
          (runPRs env prompt (milestoneTitlesToIds nodes) (prsOf nodes) rest).map
            fun es => ⟨0, es.1⟩

/-- The five labels listed in `require-release-label.yml`. -/
def requiredLabels : List String :=
  ["release:docs", "release:chore", "release:fix", "release:feature",
   "release:feature-breaking"]

/-- Modelled from the spec: the label gate delegates to the third-party
required-labels action configured with `mode: exactly` and `count: 1`, which
succeeds iff exactly one of the configured labels is attached to the pull
request. -/
def requireReleaseLabel (labels : List String) : Bool :=
  (requiredLabels.filter fun l => labels.contains l).length == 1

/-- Exit code of the label-gate CI check. -/
def requireReleaseLabelExit (labels : List String) : Nat :=
  if requireReleaseLabel labels then 0 else 1

/-! ### Helper lemmas -/

lemma milestoneTitlesToIds_foldl_absent (t : String) :
    ∀ (nodes : List Milestone), (∀ m ∈ nodes, m.title ≠ t) →
      ∀ obj : String → Option String,
        nodes.foldl
          (fun obj node => fun title =>
            if title = node.title then some node.id else obj title) obj t = obj t := by
  intro nodes
  induction nodes with
  | nil => intro _ obj; rfl
  | cons m ms ih =>
    intro h obj
    simp only [List.foldl_cons]
    rw [ih (fun m' hm' => h m' (List.mem_cons_of_mem _ hm'))]
    exact if_neg fun ht => h m (List.mem_cons_self _ _) ht.symm

lemma milestoneTitlesToIds_absent (nodes : List Milestone) (t : String)
    (h : ∀ m ∈ nodes, m.title ≠ t) :
    milestoneTitlesToIds nodes t = none :=
  milestoneTitlesToIds_foldl_absent t nodes h _

lemma milestoneTitlesToIds_foldl_present (t i : String) :
    ∀ (nodes : List Milestone) (obj : String → Option String),
      nodes.foldl
        (fun obj node => fun title =>
          if title = node.title then some node.id else obj title) obj t = some i →
      (∃ m ∈ nodes, m.title = t ∧ m.id = i) ∨ obj t = some i := by
  intro nodes
  induction nodes with
  | nil => intro obj hf; exact Or.inr hf
  | cons m ms ih =>
    intro obj hf
    simp only [List.foldl_cons] at hf
    rcases ih _ hf with hm | hobj
    · obtain ⟨m', hm', ht, hi⟩ := hm
      exact Or.inl ⟨m', List.mem_cons_of_mem _ hm', ht, hi⟩
    · by_cases ht : t = m.title
      · rw [if_pos ht] at hobj
        exact Or.inl ⟨m, List.mem_cons_self _ _, ht.symm, by simpa using hobj⟩
      · rw [if_neg ht] at hobj
        exact Or.inr hobj

lemma milestoneTitlesToIds_present (nodes : List Milestone) (t i : String)
    (h : milestoneTitlesToIds nodes t = some i) :
    ∃ m ∈ nodes, m.title = t ∧ m.id = i := by
  rcases milestoneTitlesToIds_foldl_present t i nodes _ h with hm | hobj
  · exact hm
  · exact absurd hobj (by simp)

lemma nodesOf_mem (env : Env) (m : Milestone) (h : m ∈ nodesOf env) :
    m ∈ env.milestones ∧ m.title ≠ "chore" := by
  unfold nodesOf at h
  rw [List.mem_filter] at h
  exact ⟨h.1, by simpa using h.2⟩

lemma prsOf_mem (nodes : List Milestone) (pr : FlatPR) (h : pr ∈ prsOf nodes) :
    (∃ m ∈ nodes, ∃ p ∈ m.pullRequests.nodes,
       pr = { id := p.id, number := p.number, title := p.title,
              mergeCommitMessage := firstLine p.mergeCommit.message,
              milestone := m.title }) ∧ pr.id ∉ IGNORE_LIST := by
  unfold prsOf at h
  rw [List.mem_filter] at h
  obtain ⟨h1, h2⟩ := h
  refine ⟨?_, by simpa using h2⟩
  rw [List.mem_flatMap] at h1
  obtain ⟨m, hm, hpr⟩ := h1
  rw [List.mem_map] at hpr
  obtain ⟨p, hp, he⟩ := hpr
  exact ⟨m, hm, p, hp, he.symm⟩

lemma runFixLoop_mem (p : Bool) (t2i : String → Option String) (pr : FlatPR)
    (ms : Option String) :
    ∀ ans es s, runFixLoop p t2i pr ms ans = some (es, s) → ∀ e ∈ es,
      e = Effect.openBrowser pr.number ∨
      e = Effect.mutate pr.id (ms.bind t2i) ∨
      e = Effect.markDone pr.id := by
  intro ans
  induction ans with
  | nil =>
    intro es s h e he
    cases p with
    | true => simp [runFixLoop] at h
    | false =>
      simp only [runFixLoop, Bool.false_eq_true, if_false, fixEffects,
        Option.some.injEq, Prod.mk.injEq] at h
      obtain ⟨h1, h2⟩ := h
      subst h1
      simp only [List.mem_cons, List.not_mem_nil, or_false] at he
      rcases he with rfl | rfl
      · exact Or.inr (Or.inl rfl)
      · exact Or.inr (Or.inr rfl)
  | cons a rest ih =>
    intro es s h e he
    cases p with
    | false =>
      simp only [runFixLoop, Bool.false_eq_true, if_false, fixEffects,
        Option.some.injEq, Prod.mk.injEq] at h
      obtain ⟨h1, h2⟩ := h
      subst h1
      simp only [List.mem_cons, List.not_mem_nil, or_false] at he
      rcases he with rfl | rfl
      · exact Or.inr (Or.inl rfl)
      · exact Or.inr (Or.inr rfl)
    | true =>
      by_cases hopen : (a == "open" || a == "o") = true
      · rw [runFixLoop, if_pos rfl, if_pos hopen] at h
        cases hr : runFixLoop true t2i pr ms rest with
        | none => rw [hr] at h; simp at h
        | some esp =>
          obtain ⟨es1, s1⟩ := esp
          rw [hr] at h
          simp only [Option.map_some', Option.some.injEq, Prod.mk.injEq] at h
          obtain ⟨h1, h2⟩ := h
          subst h1
          rcases List.mem_cons.mp he with he' | he'
          · exact Or.inl he'
          · exact ih es1 s1 hr e he'
      · by_cases hyes : isYes a = true
        · rw [runFixLoop, if_pos rfl, if_neg (by simpa using hopen),
            if_pos hyes] at h
          simp only [fixEffects, Option.some.injEq, Prod.mk.injEq] at h
          obtain ⟨h1, h2⟩ := h
          subst h1
          simp only [List.mem_cons, List.not_mem_nil, or_false] at he
          rcases he with rfl | rfl
          · exact Or.inr (Or.inl rfl)
          · exact Or.inr (Or.inr rfl)
        · rw [runFixLoop, if_pos rfl, if_neg (by simpa using hopen),
            if_neg (by simpa using hyes)] at h
          simp only [Option.some.injEq, Prod.mk.injEq] at h
          obtain ⟨h1, h2⟩ := h
          subst h1
          simp only [List.mem_cons, List.not_mem_nil, or_false] at he
          rcases he with rfl
          exact Or.inr (Or.inr rfl)

lemma validateMilestone_mem (p : Bool) (t2i : String → Option String)
    (pr : FlatPR) (ms : Option String) (ans : List String)
    (es : List Effect) (s : List String)
    (h : validateMilestone p t2i pr ms ans = some (es, s)) :
    ∀ e ∈ es,
      e = Effect.presentPR pr.id pr.number pr.title ms pr.milestone
            (some pr.milestone == ms) ∨
      e = Effect.openBrowser pr.number ∨
      e = Effect.mutate pr.id (ms.bind t2i) ∨
      e = Effect.markDone pr.id := by
  intro e he
  simp only [validateMilestone] at h
  split at h
  · simp only [Option.some.injEq, Prod.mk.injEq] at h
    obtain ⟨h1, h2⟩ := h
    subst h1
    simp only [List.mem_cons, List.not_mem_nil, or_false] at he
    rcases he with rfl | rfl
    · exact Or.inl rfl
    · exact Or.inr (Or.inr (Or.inr rfl))
  · cases hr : runFixLoop p t2i pr ms ans with
    | none => rw [hr] at h; simp at h
    | some esp =>
      obtain ⟨es1, s1⟩ := esp
      rw [hr] at h
      simp only [Option.map_some', Option.some.injEq, Prod.mk.injEq] at h
      obtain ⟨h1, h2⟩ := h
      subst h1
      rcases List.mem_cons.mp he with he' | he'
      · exact Or.inl he'
      · exact Or.inr (runFixLoop_mem p t2i pr ms ans es1 s1 hr e he')

lemma runPRs_mem (env : Env) (p : Bool) (t2i : String → Option String) :
    ∀ prs ans es s, runPRs env p t2i prs ans = some (es, s) → ∀ e ∈ es,
      ∃ pr, pr ∈ prs ∧
        (e = Effect.presentPR pr.id pr.number pr.title
               (expectedMilestoneFor env pr.mergeCommitMessage) pr.milestone
               (some pr.milestone == expectedMilestoneFor env pr.mergeCommitMessage) ∨
         e = Effect.openBrowser pr.number ∨
         e = Effect.mutate pr.id
               ((expectedMilestoneFor env pr.mergeCommitMessage).bind t2i) ∨
         e = Effect.markDone pr.id) := by
  intro prs
  induction prs with
  | nil =>
    intro ans es s h e he
    simp only [runPRs, Option.some.injEq, Prod.mk.injEq] at h
    obtain ⟨h1, h2⟩ := h
    subst h1
    simp at he
  | cons pr rest ih =>
    intro ans es s h e he
    rw [runPRs] at h
    cases hv : validateMilestone p t2i pr
        (expectedMilestoneFor env pr.mergeCommitMessage) ans with
    | none => rw [hv] at h; simp at h
    | some esp =>
      obtain ⟨es1, s1⟩ := esp
      rw [hv] at h
      simp only [Option.some_bind] at h
      cases hr : runPRs env p t2i rest s1 with
      | none => rw [hr] at h; simp at h
      | some esp2 =>
        obtain ⟨es2, s2⟩ := esp2
        rw [hr] at h
        simp only [Option.map_some', Option.some.injEq, Prod.mk.injEq] at h
        obtain ⟨h1, h2⟩ := h
        subst h1
        rcases List.mem_append.mp he with he' | he'
        · exact ⟨pr, List.mem_cons_self _ _,
            validateMilestone_mem p t2i pr _ ans es1 s1 hv e he'⟩
        · obtain ⟨pr', hpr', hd⟩ := ih s1 es2 s2 hr e he'
          exact ⟨pr', List.mem_cons_of_mem _ hpr', hd⟩

lemma pagination_guard_iff (env : Env) :
    ((!(nodesOf env).all fun milestone =>
        !milestone.pullRequests.pageInfo.hasNextPage) = true) ↔
    ∃ m ∈ env.milestones, m.title ≠ "chore" ∧
      m.pullRequests.pageInfo.hasNextPage = true := by
  rw [Bool.not_eq_true']
  rw [List.all_eq_false]
  constructor
  · rintro ⟨m, hm, hb⟩
    obtain ⟨hm1, hm2⟩ := nodesOf_mem env m hm
    exact ⟨m, hm1, hm2, by simpa using hb⟩
  · rintro ⟨m, hm, ht, hb⟩
    refine ⟨m, ?_, by simpa using hb⟩
    unfold nodesOf
    rw [List.mem_filter]
    exact ⟨hm, by simpa using ht⟩

lemma handler_cases (p : Bool) (env : Env) (ans : List String) (r : RunResult)
    (h : handler p env ans = some r) :
    (r.exitCode = 1 ∧ (r.effects = [] ∨ r.effects = [Effect.openCherryPickPRs])) ∨
    (r.exitCode = 0 ∧ ∃ a rest es s, ans = a :: rest ∧ (a == "n") = false ∧
      runPRs env p (milestoneTitlesToIds (nodesOf env)) (prsOf (nodesOf env))
        rest = some (es, s) ∧
      r.effects = es) := by
  simp only [handler] at h
  split at h
  · obtain rfl := Option.some.inj h
    exact Or.inl ⟨rfl, Or.inl rfl⟩
  · split at h
    · obtain rfl := Option.some.inj h
      exact Or.inl ⟨rfl, Or.inr rfl⟩
    · split at h
      · obtain rfl := Option.some.inj h
        exact Or.inl ⟨rfl, Or.inl rfl⟩
      · split at h
        · exact absurd h (by simp)
        · rename_i answer rest
          split at h
          · obtain rfl := Option.some.inj h
            exact Or.inl ⟨rfl, Or.inl rfl⟩
          · cases hr : runPRs env p (milestoneTitlesToIds (nodesOf env))
                (prsOf (nodesOf env)) rest with
            | none => rw [hr] at h; simp at h
            | some esp =>
              obtain ⟨es, s⟩ := esp
              rw [hr] at h
              simp only [Option.map_some'] at h
              obtain rfl := Option.some.inj h
              rename_i hneq
              exact Or.inr ⟨rfl, answer, rest, es, s, rfl,
                by simpa using hneq, hr, rfl⟩

lemma handler_exit_iff (p : Bool) (env : Env) (ans : List String) (r : RunResult)
    (h : handler p env ans = some r) :
    (r.exitCode = 0 ∨ r.exitCode = 1) ∧
    (r.exitCode = 1 ↔
      (env.hasGithubToken = false ∨ 0 < env.cherryPickTotalCount ∨
       (∃ m ∈ env.milestones, m.title ≠ "chore" ∧
          m.pullRequests.pageInfo.hasNextPage = true) ∨
       ans.head? = some "n")) := by
  simp only [handler] at h
  split at h
  case isTrue htok =>
    obtain rfl := Option.some.inj h
    exact ⟨Or.inr rfl, fun _ => Or.inl (by simpa using htok), fun _ => rfl⟩
  case isFalse htok =>
    split at h
    case isTrue hcp =>
      obtain rfl := Option.some.inj h
      exact ⟨Or.inr rfl, fun _ => Or.inr (Or.inl hcp), fun _ => rfl⟩
    case isFalse hcp =>
      split at h
      case isTrue hpag =>
        obtain rfl := Option.some.inj h
        exact ⟨Or.inr rfl,
          fun _ => Or.inr (Or.inr (Or.inl ((pagination_guard_iff env).mp hpag))),
          fun _ => rfl⟩
      case isFalse hpag =>
        split at h
        · exact absurd h (by simp)
        · rename_i answer rest
          split at h
          case isTrue hn =>
            obtain rfl := Option.some.inj h
            refine ⟨Or.inr rfl,
              fun _ => Or.inr (Or.inr (Or.inr ?_)), fun _ => rfl⟩
            rw [List.head?_cons]
            exact congrArg some (by simpa using hn)
          case isFalse hn =>
            cases hr : runPRs env p (milestoneTitlesToIds (nodesOf env))
                (prsOf (nodesOf env)) rest with
            | none => rw [hr] at h; simp at h
            | some esp =>
              obtain ⟨es, s⟩ := esp
              rw [hr] at h
              simp only [Option.map_some'] at h
              obtain rfl := Option.some.inj h
              refine ⟨Or.inl rfl, ?_, ?_⟩
              · intro h0
                exact absurd h0 (by simp)
              · intro hd
                exfalso
                rcases hd with hd | hd | hd | hd
                · simp [hd] at htok
                · exact hcp hd
                · exact hpag ((pagination_guard_iff env).mpr hd)
                · rw [List.head?_cons, Option.some.injEq] at hd
                  exact hn (by simpa using hd)

lemma nodup_all_eq_singleton {α : Type} (xs : List α) (a : α) (hnd : xs.Nodup)
    (ha : a ∈ xs) (hall : ∀ x ∈ xs, x = a) : xs = [a] := by
  cases xs with
  | nil => cases ha
  | cons x t =>
    have hx : x = a := hall x (List.mem_cons_self _ _)
    subst hx
    cases t with
    | nil => rfl
    | cons y t' =>
      exfalso
      have hy : y = x :=
        hall y (List.mem_cons_of_mem _ (List.mem_cons_self _ _))
      rw [List.nodup_cons] at hnd
      apply hnd.1
      rw [← hy]
      exact List.mem_cons_self _ _

lemma requireReleaseLabel_iff (labels : List String) :
    requireReleaseLabel labels = true ↔
      ∃! l, l ∈ requiredLabels ∧ l ∈ labels := by
  unfold requireReleaseLabel
  rw [beq_iff_eq]
  constructor
  · intro h1
    obtain ⟨a, ha⟩ := List.length_eq_one.mp h1
    have hmem : a ∈ requiredLabels.filter fun l => labels.contains l := by
      rw [ha]
      exact List.mem_cons_self _ _
    rw [List.mem_filter] at hmem
    refine ⟨a, ⟨hmem.1, by simpa using hmem.2⟩, ?_⟩
    intro y hy
    have hyf : y ∈ requiredLabels.filter fun l => labels.contains l := by
      rw [List.mem_filter]
      exact ⟨hy.1, by simpa using hy.2⟩
    rw [ha] at hyf
    simpa using hyf
  · rintro ⟨l, ⟨hl1, hl2⟩, huniq⟩
    have hnd : (requiredLabels.filter fun l => labels.contains l).Nodup :=
      List.Nodup.filter _ (by decide)
    have hlm : l ∈ requiredLabels.filter fun l => labels.contains l := by
      rw [List.mem_filter]
      exact ⟨hl1, by simpa using hl2⟩
    have hall : ∀ x ∈ requiredLabels.filter fun l => labels.contains l, x = l := by
      intro x hx
      rw [List.mem_filter] at hx
      exact huniq x ⟨hx.1, by simpa using hx.2⟩
    rw [nodup_all_eq_singleton _ l hnd hlm hall]
    rfl

/-! ### Sample environments used by the witnesses -/

/-- An environment whose single open milestone v3.5.0 holds one correctly
milestoned PR whose merge commit is in the release branch. -/
def envOk : Env :=
  { hasGithubToken := true
    cherryPickTotalCount := 0
    milestones :=
      [{ id := "MI_1"
         title := "v3.5.0"
         pullRequests :=
           { pageInfo := { hasNextPage := false }
             nodes := [{ id := "PR_1", number := 6000, title := "Fix thing",
                         mergeCommit := { message := "fix: something\nbody" } }] } }]
    releaseBranch := "release/minor/v3.5.0"
    releaseCommits := [{ message := "fix: something" }]
    nextCommitMessages := []
    sanitize := fun s => s }

/-- An environment whose only open milestone is titled "chore" and would
require pagination. -/
def envChoreNext : Env :=
  { hasGithubToken := true
    cherryPickTotalCount := 0
    milestones :=
      [{ id := "MI_0"
         title := "chore"
         pullRequests := { pageInfo := { hasNextPage := true }, nodes := [] } }]
    releaseBranch := "release/minor/v3.5.0"
    releaseCommits := []
    nextCommitMessages := []
    sanitize := fun s => s }

/-- An environment whose open milestone v3.5.0 would require pagination. -/
def envPag : Env :=
  { hasGithubToken := true
    cherryPickTotalCount := 0
    milestones :=
      [{ id := "MI_1"
         title := "v3.5.0"
         pullRequests := { pageInfo := { hasNextPage := true }, nodes := [] } }]
    releaseBranch := "release/minor/v3.5.0"
    releaseCommits := []
    nextCommitMessages := []
    sanitize := fun s => s }

/-- An environment with the credential environment variable unset. -/
def envNoToken : Env :=
  { hasGithubToken := false
    cherryPickTotalCount := 0
    milestones := []
    releaseBranch := "release/minor/v3.5.0"
    releaseCommits := []
    nextCommitMessages := []
    sanitize := fun s => s }

/-- An environment with one open cherry-pick PR. -/
def envCherry : Env :=
  { hasGithubToken := true
    cherryPickTotalCount := 1
    milestones := []
    releaseBranch := "release/minor/v3.5.0"
    releaseCommits := []
    nextCommitMessages := []
    sanitize := fun s => s }

/-- A flattened PR currently milestoned v3.4.0. -/
def prSample : FlatPR :=
  { id := "PR_1", number := 6000, title := "Fix thing",
    mergeCommitMessage := "fix: something", milestone := "v3.4.0" }

/-- The milestone-title-to-id mapping of `envOk`. -/
def t2iSample : String → Option String :=
  milestoneTitlesToIds (nodesOf envOk)

/-! ### Claims -/

/-- C2: the CI label-gate check succeeds (exit code 0) iff exactly one label
from the configured set {release:docs, release:chore, release:fix,
release:feature, release:feature-breaking} is present in the PR's label set;
otherwise it fails with a non-zero exit. -/
theorem C2_label_gate (labels : List String) :
    (requireReleaseLabelExit labels = 0 ↔
      ∃! l, l ∈ requiredLabels ∧ l ∈ labels) ∧
    (¬(∃! l, l ∈ requiredLabels ∧ l ∈ labels) →
      requireReleaseLabelExit labels = 1) := by
  have hiff := requireReleaseLabel_iff labels
  unfold requireReleaseLabelExit
  refine ⟨⟨?_, ?_⟩, ?_⟩
  · intro h0
    by_cases hb : requireReleaseLabel labels = true
    · exact hiff.mp hb
    · rw [if_neg hb] at h0
      exact absurd h0 one_ne_zero
  · intro hu
    rw [if_pos (hiff.mpr hu)]
  · intro hu
    rw [if_neg fun hb => hu (hiff.mp hb)]

/-- C2 witness: the check passes on {release:fix} and fails on
{release:fix, release:docs}. -/
theorem C2_label_gate_witness :
    requireReleaseLabelExit ["release:fix"] = 0 ∧
    requireReleaseLabelExit ["release:fix", "release:docs"] = 1 := by
  constructor
  · exact (C2_label_gate ["release:fix"]).1.mpr
      ⟨"release:fix", ⟨by decide, by decide⟩, fun y hy => by
        have hm := hy.2
        simp only [List.mem_singleton] at hm
        exact hm⟩
  · refine (C2_label_gate ["release:fix", "release:docs"]).2 ?_
    rintro ⟨l, _, huniq⟩
    have h1 := huniq "release:fix" ⟨by decide, by decide⟩
    have h2 := huniq "release:docs" ⟨by decide, by decide⟩
    rw [← h2] at h1
    exact absurd h1 (by decide)

/-- C4: in the reconciliation loop for a mismatched PR, with the prompt flag
disabled the default affirmative issues the milestone-correction mutation
(with the PR's id and the looked-up milestoneId of the expected milestone),
marks done and exits without reading input; with the prompt flag enabled, a
response of "open" or "o" opens the PR in a browser and loops again, an
affirmative response issues the mutation, marks done and exits, and any other
response marks done without a mutation. -/
theorem C4_reconciliation_loop (t2i : String → Option String) (pr : FlatPR)
    (ms : Option String) (a : String) (rest : List String) :
    (runFixLoop false t2i pr ms rest =
      some ([Effect.mutate pr.id (ms.bind t2i), Effect.markDone pr.id], rest)) ∧
    ((a = "open" ∨ a = "o") →
      runFixLoop true t2i pr ms (a :: rest) =
        (runFixLoop true t2i pr ms rest).map fun es =>
          (Effect.openBrowser pr.number :: es.1, es.2)) ∧
    (isYes a = true → a ≠ "open" → a ≠ "o" →
      runFixLoop true t2i pr ms (a :: rest) =
        some ([Effect.mutate pr.id (ms.bind t2i), Effect.markDone pr.id], rest)) ∧
    (isYes a = false → a ≠ "open" → a ≠ "o" →
      runFixLoop true t2i pr ms (a :: rest) =
        some ([Effect.markDone pr.id], rest)) := by
  refine ⟨?_, ?_, ?_, ?_⟩
  · cases rest with
    | nil => simp [runFixLoop, fixEffects]
    | cons b bs => simp [runFixLoop, fixEffects]
  · rintro (rfl | rfl) <;> simp [runFixLoop]
  · intro hy ho1 ho2
    simp [runFixLoop, fixEffects, ho1, ho2, hy]
  · intro hy ho1 ho2
    simp [runFixLoop, ho1, ho2, hy]

/-- C4 witness: with the prompt disabled the default affirmative mutates
without input; with the prompt enabled the response "skip" marks done without
a mutation, leaving the rest of the input stream untouched. -/
theorem C4_reconciliation_loop_witness :
    runFixLoop false t2iSample prSample (some "v3.5.0") [] =
      some ([Effect.mutate prSample.id ((some "v3.5.0").bind t2iSample),
             Effect.markDone prSample.id], []) ∧
    runFixLoop true t2iSample prSample (some "v3.5.0") ["skip", "y"] =
      some ([Effect.markDone prSample.id], ["y"]) :=
  ⟨(C4_reconciliation_loop t2iSample prSample (some "v3.5.0") "x" []).1,
   (C4_reconciliation_loop t2iSample prSample (some "v3.5.0") "skip" ["y"]).2.2.2
     (by decide) (by decide) (by decide)⟩

/-- C5: when a PR's actual milestone equals its expected milestone,
`makeValidateMilestone` reports ok, marks the PR done, consumes no operator
input, and issues no mutation, so the remote milestone assignment is left
unchanged. -/
theorem C5_match_no_mutation (p : Bool) (t2i : String → Option String)
    (pr : FlatPR) (ms : Option String) (ans : List String) (i : String)
    (mid : Option String)
    (h : ms = some pr.milestone) :
    validateMilestone p t2i pr ms ans =
      some ([Effect.presentPR pr.id pr.number pr.title ms pr.milestone true,
             Effect.markDone pr.id], ans) ∧
    Effect.mutate i mid ∉
      [Effect.presentPR pr.id pr.number pr.title ms pr.milestone true,
       Effect.markDone pr.id] := by
  subst h
  exact ⟨by simp [validateMilestone], by simp⟩

/-- C5 witness: a PR milestoned v3.5.0 with expected milestone v3.5.0 is
reported ok and produces no mutation. -/
theorem C5_match_no_mutation_witness :
    validateMilestone true t2iSample
        { prSample with milestone := "v3.5.0" } (some "v3.5.0") ["y"] =
      some ([Effect.presentPR prSample.id prSample.number prSample.title
               (some "v3.5.0") "v3.5.0" true,
             Effect.markDone prSample.id], ["y"]) ∧
    Effect.mutate "PR_1" (some "MI_1") ∉
      [Effect.presentPR prSample.id prSample.number prSample.title
         (some "v3.5.0") "v3.5.0" true,
       Effect.markDone prSample.id] :=
  C5_match_no_mutation true t2iSample { prSample with milestone := "v3.5.0" }
    (some "v3.5.0") ["y"] "PR_1" (some "MI_1") rfl

/-- C8: when the credential is present and the open cherry-pick query returns
a positive count, the run reports the cherry-pick PRs and exits with code 1,
with no milestone fetched and no PR processed. -/
theorem C8_cherry_pick_guard (p : Bool) (env : Env) (ans : List String)
    (htok : env.hasGithubToken = true) (hc : 0 < env.cherryPickTotalCount) :
    handler p env ans = some ⟨1, [Effect.openCherryPickPRs]⟩ := by
  simp [handler, htok, hc]

/-- C8 witness: one open cherry-pick PR aborts the run with exit code 1. -/
theorem C8_cherry_pick_guard_witness :
    handler true envCherry [] = some ⟨1, [Effect.openCherryPickPRs]⟩ :=
  C8_cherry_pick_guard true envCherry [] (by decide) (by decide)

/-- C10: the milestone-title-to-id mapping contains only titles of fetched
open non-"chore" milestones; when a mismatched PR's expected milestone has no
open milestone with that exact title, an affirmative fix issues the mutation
with an undefined (`none`) milestoneId instead of failing or skipping. -/
theorem C10_undefined_milestone_id (env : Env) (pr : FlatPR)
    (t title i a : String) (rest : List String)
    (hmm : pr.milestone ≠ t)
    (hno : ∀ m ∈ nodesOf env, m.title ≠ t)
    (hti : milestoneTitlesToIds (nodesOf env) title = some i)
    (ha : isYes a = true) (ho1 : a ≠ "open") (ho2 : a ≠ "o") :
    (∃ m ∈ nodesOf env, m.title = title) ∧
    milestoneTitlesToIds (nodesOf env) t = none ∧
    validateMilestone true (milestoneTitlesToIds (nodesOf env)) pr (some t)
        (a :: rest) =
      some ([Effect.presentPR pr.id pr.number pr.title (some t) pr.milestone
               false,
             Effect.mutate pr.id none, Effect.markDone pr.id], rest) := by
  obtain ⟨m, hm, hmt, _⟩ := milestoneTitlesToIds_present (nodesOf env) title i hti
  have habs : milestoneTitlesToIds (nodesOf env) t = none :=
    milestoneTitlesToIds_absent (nodesOf env) t hno
  refine ⟨⟨m, hm, hmt⟩, habs, ?_⟩
  have hbeq : (some pr.milestone == some t) = false := by
    simp [hmm]
  simp [validateMilestone, hbeq, runFixLoop, ho1, ho2, ha, fixEffects, habs]

/-- C10 witness: with only milestone v3.5.0 open, the fallback title v4.0.0
has no id and the affirmative fix issues a mutation with milestoneId `none`. -/
theorem C10_undefined_milestone_id_witness :
    (∃ m ∈ nodesOf envOk, m.title = "v3.5.0") ∧
    milestoneTitlesToIds (nodesOf envOk) "v4.0.0" = none ∧
    validateMilestone true (milestoneTitlesToIds (nodesOf envOk)) prSample
        (some "v4.0.0") ["y"] =
      some ([Effect.presentPR prSample.id prSample.number prSample.title
               (some "v4.0.0") prSample.milestone false,
             Effect.mutate prSample.id none, Effect.markDone prSample.id],
            []) :=
  C10_undefined_milestone_id envOk prSample "v4.0.0" "v3.5.0" "MI_1" "y" []
    (by decide) (by decide) (by decide) (by decide) (by decide) (by decide)

lemma handler_effect_id_in_prs (p : Bool) (env : Env) (ans : List String)
    (r : RunResult) (i : String)
    (h : handler p env ans = some r)
    (hmem : (∃ n t e act ok, Effect.presentPR i n t e act ok ∈ r.effects) ∨
            (∃ mid, Effect.mutate i mid ∈ r.effects)) :
    ∃ pr, pr ∈ prsOf (nodesOf env) ∧ i = pr.id := by
  rcases handler_cases p env ans r h with ⟨_, hef | hef⟩ |
    ⟨_, a, rest, es, s, _, _, hrun, hef⟩
  · rcases hmem with ⟨n, t, e, act, ok, hmem⟩ | ⟨mid, hmem⟩ <;>
      rw [hef] at hmem <;> simp at hmem
  · rcases hmem with ⟨n, t, e, act, ok, hmem⟩ | ⟨mid, hmem⟩ <;>
      rw [hef] at hmem <;> simp at hmem
  · rcases hmem with ⟨n, t, e, act, ok, hmem⟩ | ⟨mid, hmem⟩
    · rw [hef] at hmem
      obtain ⟨pr, hpr, hd⟩ := runPRs_mem env p _ _ rest es s hrun _ hmem
      rcases hd with hd | hd | hd | hd
      · rw [Effect.presentPR.injEq] at hd
        exact ⟨pr, hpr, hd.1⟩
      · exact absurd hd (by simp)
      · exact absurd hd (by simp)
      · exact absurd hd (by simp)
    · rw [hef] at hmem
      obtain ⟨pr, hpr, hd⟩ := runPRs_mem env p _ _ rest es s hrun _ hmem
      rcases hd with hd | hd | hd | hd
      · exact absurd hd (by simp)
      · exact absurd hd (by simp)
      · rw [Effect.mutate.injEq] at hd
        exact ⟨pr, hpr, hd.1⟩
      · exact absurd hd (by simp)

/-- C1: every PR a completed run of `validate-milestones` presents comes from
the flattened PR list, and its expected milestone is determined by testing in
order: if the (unsanitized) first line of the merge-commit message matches a
commit message of the release branch, the expected milestone is the release
branch's third '/'-separated segment; else if the sanitized message is among
the commits reachable from `next`, it is "next-release"; else it is the fixed
fallback "v4.0.0". -/
theorem C1_expected_milestone (p : Bool) (env : Env) (ans : List String)
    (r : RunResult) (i : String) (n : Nat) (t : String) (exp : Option String)
    (act : String) (ok : Bool)
    (h : handler p env ans = some r)
    (hmem : Effect.presentPR i n t exp act ok ∈ r.effects) :
    ∃ pr, pr ∈ prsOf (nodesOf env) ∧ i = pr.id ∧
      exp = (if isCommitInReleaseBranch env pr.mergeCommitMessage then
               (jsSplit '/' env.releaseBranch)[2]?
             else if isCommitInNext env (env.sanitize pr.mergeCommitMessage) then
               some "next-release"
             else
               some "v4.0.0") := by
  rcases handler_cases p env ans r h with ⟨_, hef | hef⟩ |
    ⟨_, a, rest, es, s, _, _, hrun, hef⟩
  · rw [hef] at hmem
    simp at hmem
  · rw [hef] at hmem
    simp at hmem
  · rw [hef] at hmem
    obtain ⟨pr, hpr, hd⟩ := runPRs_mem env p _ _ rest es s hrun _ hmem
    rcases hd with hd | hd | hd | hd
    · rw [Effect.presentPR.injEq] at hd
      obtain ⟨h1, _, _, h4, _, _⟩ := hd
      refine ⟨pr, hpr, h1, ?_⟩
      rw [h4]
      rfl
    · exact absurd hd (by simp)
    · exact absurd hd (by simp)
    · exact absurd hd (by simp)

/-- C1 witness: in `envOk` the presented PR "PR_1" is classified via the
release branch, whose third path segment is v3.5.0. -/
theorem C1_expected_milestone_witness :
    ∃ pr, pr ∈ prsOf (nodesOf envOk) ∧ "PR_1" = pr.id ∧
      (some "v3.5.0" : Option String) =
        (if isCommitInReleaseBranch envOk pr.mergeCommitMessage then
           (jsSplit '/' envOk.releaseBranch)[2]?
         else if isCommitInNext envOk (envOk.sanitize pr.mergeCommitMessage) then
           some "next-release"
         else
           some "v4.0.0") :=
  C1_expected_milestone true envOk ["y"]
    ⟨0, [Effect.presentPR "PR_1" 6000 "Fix thing" (some "v3.5.0") "v3.5.0" true,
         Effect.markDone "PR_1"]⟩
    "PR_1" 6000 "Fix thing" (some "v3.5.0") "v3.5.0" true
    (by decide) (by decide)

/-- C3 counterexample: the fetched set of `envChoreNext` contains a milestone
(titled "chore") whose PR list reports `hasNextPage = true`, yet the run
completes with exit code 0 — the exit-1 guarantee does not hold for every
milestone in the fetched set. -/
theorem C3_counterexample :
    (envChoreNext.milestones.any fun m =>
      m.pullRequests.pageInfo.hasNextPage) = true ∧
    (handler true envChoreNext ["y"]).map RunResult.exitCode = some 0 := by
  decide

/-- C3 (amended): if any fetched open milestone other than "chore" reports
`hasNextPage = true`, a completed run exits with code 1 and presents and
mutates no PR. -/
theorem C3_pagination_aborts (p : Bool) (env : Env) (ans : List String)
    (r : RunResult) (i : String) (n : Nat) (t : String) (e : Option String)
    (act : String) (ok : Bool) (mid : Option String)
    (h : handler p env ans = some r)
    (hm : ∃ m ∈ env.milestones, m.title ≠ "chore" ∧
      m.pullRequests.pageInfo.hasNextPage = true) :
    r.exitCode = 1 ∧
    Effect.presentPR i n t e act ok ∉ r.effects ∧
    Effect.mutate i mid ∉ r.effects := by
  have hx := ((handler_exit_iff p env ans r h).2).mpr (Or.inr (Or.inr (Or.inl hm)))
  refine ⟨hx, ?_, ?_⟩
  all_goals
    intro hmem
    rcases handler_cases p env ans r h with ⟨_, hef | hef⟩ | ⟨h0, _⟩
    · rw [hef] at hmem
      simp at hmem
    · rw [hef] at hmem
      simp at hmem
    · rw [h0] at hx
      exact absurd hx (by decide)

/-- C3 witness: `envPag` has an open v3.5.0 milestone needing pagination and
its run exits 1 presenting nothing. -/
theorem C3_pagination_aborts_witness :
    (⟨1, []⟩ : RunResult).exitCode = 1 ∧
    Effect.presentPR "PR_1" 6000 "Fix thing" (some "v3.5.0") "v3.5.0" true ∉
      (⟨1, []⟩ : RunResult).effects ∧
    Effect.mutate "PR_1" none ∉ (⟨1, []⟩ : RunResult).effects :=
  C3_pagination_aborts true envPag ["y"] ⟨1, []⟩ "PR_1" 6000 "Fix thing"
    (some "v3.5.0") "v3.5.0" true none (by decide)
    ⟨⟨"MI_1", "v3.5.0", ⟨⟨true⟩, []⟩⟩, by decide, by decide, by decide⟩

/-- C6: a milestone titled "chore" is never part of the validation set — every
PR id that a completed run presents or mutates belongs to the PR list of some
fetched milestone that is not titled "chore". -/
theorem C6_chore_excluded (p : Bool) (env : Env) (ans : List String)
    (r : RunResult) (i : String) (n : Nat) (t : String) (e : Option String)
    (act : String) (ok : Bool) (mid : Option String)
    (h : handler p env ans = some r)
    (hmem : Effect.presentPR i n t e act ok ∈ r.effects ∨
            Effect.mutate i mid ∈ r.effects) :
    ∃ m ∈ env.milestones, m.title ≠ "chore" ∧
      ∃ node ∈ m.pullRequests.nodes, node.id = i := by
  have hpr : ∃ pr, pr ∈ prsOf (nodesOf env) ∧ i = pr.id := by
    refine handler_effect_id_in_prs p env ans r i h ?_
    rcases hmem with hmem | hmem
    · exact Or.inl ⟨n, t, e, act, ok, hmem⟩
    · exact Or.inr ⟨mid, hmem⟩
  obtain ⟨pr, hpr, rfl⟩ := hpr
  obtain ⟨⟨m, hm, node, hnode, hflat⟩, _⟩ := prsOf_mem (nodesOf env) pr hpr
  obtain ⟨hm1, hm2⟩ := nodesOf_mem env m hm
  exact ⟨m, hm1, hm2, node, hnode, (congrArg FlatPR.id hflat).symm⟩

/-- C6 witness: the id presented in `envOk`'s run belongs to the open
non-"chore" milestone v3.5.0. -/
theorem C6_chore_excluded_witness :
    ∃ m ∈ envOk.milestones, m.title ≠ "chore" ∧
      ∃ node ∈ m.pullRequests.nodes, node.id = "PR_1" :=
  C6_chore_excluded true envOk ["y"]
    ⟨0, [Effect.presentPR "PR_1" 6000 "Fix thing" (some "v3.5.0") "v3.5.0" true,
         Effect.markDone "PR_1"]⟩
    "PR_1" 6000 "Fix thing" (some "v3.5.0") "v3.5.0" true none
    (by decide) (Or.inl (by decide))

/-- C7: a PR whose id is on the hardcoded ignore list is never presented for
reconciliation and never mutated by a completed run, regardless of its
milestone state. -/
theorem C7_ignore_list (p : Bool) (env : Env) (ans : List String)
    (r : RunResult) (i : String) (n : Nat) (t : String) (e : Option String)
    (act : String) (ok : Bool) (mid : Option String)
    (h : handler p env ans = some r) (hi : i ∈ IGNORE_LIST) :
    Effect.presentPR i n t e act ok ∉ r.effects ∧
    Effect.mutate i mid ∉ r.effects := by
  constructor
  · intro hmem
    obtain ⟨pr, hpr, rfl⟩ := handler_effect_id_in_prs p env ans r i h
      (Or.inl ⟨n, t, e, act, ok, hmem⟩)
    exact (prsOf_mem (nodesOf env) pr hpr).2 hi
  · intro hmem
    obtain ⟨pr, hpr, rfl⟩ := handler_effect_id_in_prs p env ans r i h
      (Or.inr ⟨mid, hmem⟩)
    exact (prsOf_mem (nodesOf env) pr hpr).2 hi

/-- C7 witness: the first ignore-list id is neither presented nor mutated in
`envOk`'s completed run. -/
theorem C7_ignore_list_witness :
    Effect.presentPR "PR_kwDOC2M2f85AxHWK" 1 "t" none "v3.5.0" false ∉
      (⟨0, [Effect.presentPR "PR_1" 6000 "Fix thing" (some "v3.5.0") "v3.5.0"
              true,
            Effect.markDone "PR_1"]⟩ : RunResult).effects ∧
    Effect.mutate "PR_kwDOC2M2f85AxHWK" none ∉
      (⟨0, [Effect.presentPR "PR_1" 6000 "Fix thing" (some "v3.5.0") "v3.5.0"
              true,
            Effect.markDone "PR_1"]⟩ : RunResult).effects :=
  C7_ignore_list true envOk ["y"]
    ⟨0, [Effect.presentPR "PR_1" 6000 "Fix thing" (some "v3.5.0") "v3.5.0" true,
         Effect.markDone "PR_1"]⟩
    "PR_kwDOC2M2f85AxHWK" 1 "t" none "v3.5.0" false none
    (by decide) (by decide)

/-- C9 counterexample: in `envChoreNext` a fetched milestone's PR list would
require pagination, yet the completed run exits with code 0 rather than 1,
refuting the "exactly in these cases" enumeration as stated. -/
theorem C9_counterexample :
    (envChoreNext.milestones.any fun m =>
      m.pullRequests.pageInfo.hasNextPage) = true ∧
    envChoreNext.hasGithubToken = true ∧
    envChoreNext.cherryPickTotalCount = 0 ∧
    handler true envChoreNext ["y"] = some ⟨0, []⟩ := by
  decide

/-- C9 (amended): a completed run exits with code 1 exactly when the
credential is missing, the open cherry-pick count is positive, some
non-"chore" open milestone's PR list would require pagination, or the
operator answers "n" at the initial review question; in every other completed
run it exits with code 0. -/
theorem C9_exit_codes (p : Bool) (env : Env) (ans : List String)
    (r : RunResult)
    (h : handler p env ans = some r) :
    (r.exitCode = 0 ∨ r.exitCode = 1) ∧
    (r.exitCode = 1 ↔
      (env.hasGithubToken = false ∨ 0 < env.cherryPickTotalCount ∨
       (∃ m ∈ env.milestones, m.title ≠ "chore" ∧
          m.pullRequests.pageInfo.hasNextPage = true) ∨
       ans.head? = some "n")) :=
  handler_exit_iff p env ans r h

/-- C9 witness: with the credential missing the run exits with code 1. -/
theorem C9_exit_codes_witness :
    ((⟨1, []⟩ : RunResult).exitCode = 0 ∨ (⟨1, []⟩ : RunResult).exitCode = 1) ∧
    (⟨1, []⟩ : RunResult).exitCode = 1 :=
  ⟨(C9_exit_codes true envNoToken [] ⟨1, []⟩ (by decide)).1,
   ((C9_exit_codes true envNoToken [] ⟨1, []⟩ (by decide)).2).mpr
     (Or.inl (by decide))⟩

end Redwood
